import Mathlib

/-!
Verification development for the realreview image-upload backend.

The Python source (backend/crud.py, main.py, models.py, schemas.py,
database.py) is shallowly embedded below: file storage becomes an
association list from paths to byte lists, the database becomes a list of
metadata rows plus an auto-increment counter and a server clock, the
random UUID consumed by save_image_file is passed in explicitly, and
HTTP failures become Except values carrying a status code.
-/

namespace RealReview

/-- Mirrors Python's rfind: the largest index of the character in the
list, or -1 when it does not occur. -/
def lastIndexOf (c : Char) : List Char → Int
  | [] => -1
  | x :: xs =>
    let r := lastIndexOf c xs
    if r ≥ 0 then r + 1
    else if x = c then 0 else -1

/-- Embedding of os.path.splitext (posixpath: sep is the slash, no
altsep, extsep is the dot), from CPython's genericpath: split at the last
dot that lies after the last slash, unless every character between the
last slash and that dot is itself a dot (leading-dot names keep no
extension). -/
def splitext (p : String) : String × String :=
  let l := p.toList
  let sepIndex := lastIndexOf '/' l
  let dotIndex := lastIndexOf '.' l
  if dotIndex > sepIndex then
    let start := (sepIndex + 1).toNat
    let stop := dotIndex.toNat
    if (List.range (stop - start)).any (fun i => l.getD (start + i) '.' != '.') then
      (String.mk (l.take stop), String.mk (l.drop stop))
    else (p, "")
  else (p, "")

/-- The upload directory constant of crud.py with its default value (the
os.getenv default "./uploads"). -/
def UPLOAD_DIR : String := "./uploads"

/-- Models os.path.join for a directory not ending in a slash. -/
def joinPath (dir name : String) : String := dir ++ "/" ++ name

/-- An upload stream: the client-supplied filename plus the byte contents
of the stream (FastAPI UploadFile). -/
structure UploadFile where
  filename : String
  content : List Nat
deriving Repr, DecidableEq

/-- The on-disk upload directory: an association list from full paths to
byte contents; a fresh write is consed on, so the head entry for a path
is its current contents. -/
structure Storage where
  files : List (String × List Nat)
deriving Repr, DecidableEq

/-- Contents currently stored at path p, if any. -/
def Storage.lookup (st : Storage) (p : String) : Option (List Nat) :=
  (st.files.find? (fun e => e.1 == p)).map (fun e => e.2)

/-- Embedding of crud.save_image_file: derive the extension of the
original filename with os.path.splitext, build the string
uuid4-followed-by-extension, and write the stream's full contents to that
path under UPLOAD_DIR.  The random UUID drawn by uuid.uuid4() is the
explicit first argument.  Returns the generated unique filename together
with the new storage state. -/
def save_image_file (uuid : String) (upload_file : UploadFile) (st : Storage) :
    String × Storage :=
  let file_extension := (splitext upload_file.filename).2
  let unique_filename := uuid ++ file_extension
  let file_path := joinPath UPLOAD_DIR unique_filename
  (unique_filename, ⟨(file_path, upload_file.content) :: st.files⟩)

/-- One row of the image_metadata table (models.ImageMetadata):
auto-assigned integer primary key, unique stored filename, original
client filename, optional uploader name and location, server-defaulted
upload timestamp. -/
structure ImageMetadata where
  id : Int
  filename : String
  original_filename : String
  uploader_name : Option String
  upload_timestamp : Nat
  location : Option String
deriving Repr, DecidableEq

/-- The creation schema schemas.ImageMetadataCreate: the optional form
fields of an upload. -/
structure ImageMetadataCreate where
  uploader_name : Option String := none
  location : Option String := none
deriving Repr, DecidableEq

/-- Database state: rows in insertion order, the next auto-increment id,
and the database clock read by func.now(). -/
structure DBState where
  records : List ImageMetadata
  nextId : Int
  clock : Nat
deriving Repr, DecidableEq

/-- Database-layer failure: the unique constraint on filename
(IntegrityError raised by db.commit()). -/
inductive DBError where
  | uniqueViolation
deriving Repr, DecidableEq

/-- Embedding of crud.create_image_metadata: build the row from the
generated filename, the original filename and the optional form fields,
insert and commit.  A commit that violates the unique constraint on
filename raises, which the function propagates; otherwise the refreshed
row carries the assigned id and the server-generated timestamp. -/
def create_image_metadata (db : DBState) (filename : String)
    (original_filename : String) (metadata : ImageMetadataCreate) :
    Except DBError (ImageMetadata × DBState) :=
  if db.records.any (fun r => r.filename == filename) then
    .error .uniqueViolation
  else
    let db_metadata : ImageMetadata :=
      { id := db.nextId
        filename := filename
        original_filename := original_filename
        uploader_name := metadata.uploader_name
        upload_timestamp := db.clock
        location := metadata.location }
    .ok (db_metadata,
      { records := db.records ++ [db_metadata]
        nextId := db.nextId + 1
        clock := db.clock })

/-- Embedding of crud.get_images_metadata: offset(skip).limit(limit) over
the rows in their stable stored order. -/
def get_images_metadata (db : DBState) (skip : Nat := 0) (limit : Nat := 100) :
    List ImageMetadata :=
  (db.records.drop skip).take limit

/-- Embedding of crud.get_image_metadata: filter by id, take the first
match or none. -/
def get_image_metadata (db : DBState) (image_id : Int) : Option ImageMetadata :=
  db.records.find? (fun r => r.id == image_id)

/-- An HTTPException: status code and detail string. -/
structure HTTPError where
  status : Nat
  detail : String
deriving Repr, DecidableEq

/-- Embedding of main.get_image_metadata_by_id (GET /images/:image_id):
point lookup, 404 when absent.  The second component is the database as
the handler leaves it: the handler only reads. -/
def get_image_metadata_by_id (db : DBState) (image_id : Int) :
    Except HTTPError ImageMetadata × DBState :=
  match get_image_metadata db image_id with
  | none => (.error ⟨404, "Image not found"⟩, db)
  | some db_image => (.ok db_image, db)

/-- Embedding of main.list_images_metadata (GET /images/): paginated
list.  The second component is the database as the handler leaves it: the
handler only reads. -/
def list_images_metadata (db : DBState) (skip : Nat := 0) (limit : Nat := 100) :
    List ImageMetadata × DBState :=
  (get_images_metadata db skip limit, db)

/-- Embedding of main.upload_image_and_metadata (POST /upload): save the
file, then insert the metadata row.  saveFails models an I/O exception
raised inside save_image_file before the write takes effect; insertFails
models a database connectivity failure during the insert.  Either
exception, as well as an IntegrityError from the unique constraint, is
turned into a 500 HTTPException; per the source's TODO no saved file is
ever deleted on a later failure. -/
def upload_image_and_metadata (uuid : String) (upload_file : UploadFile)
    (uploader_name : Option String) (location : Option String)
    (saveFails : Bool) (insertFails : Bool)
    (storage : Storage) (db : DBState) :
    Except HTTPError ImageMetadata × Storage × DBState :=
  if saveFails then
    (.error ⟨500, "Failed to save image file"⟩, storage, db)
  else
    let saved := save_image_file uuid upload_file storage
    let unique_filename := saved.1
    let storage' := saved.2
    if insertFails then
      (.error ⟨500, "Failed to create image metadata"⟩, storage', db)
    else
      match create_image_metadata db unique_filename upload_file.filename
          ⟨uploader_name, location⟩ with
      | .error _ => (.error ⟨500, "Failed to create image metadata"⟩, storage', db)
      | .ok (db_metadata, db') => (.ok db_metadata, storage', db')

/-- A database session as database.get_db manages it. -/
structure DbSession where
  closed : Bool
deriving Repr, DecidableEq

/-- Embedding of database.get_db: open a fresh session, hand it to the
request handler, and close it in a finally block — the close happens
whether the handler returns normally or raises (handlers are embedded as
total functions into Except). -/
def get_db_run {ε α : Type} (handler : DbSession → Except ε α) :
    Except ε α × DbSession :=
  let db : DbSession := { closed := false }
  let result := handler db
  (result, { db with closed := true })

/-- Decidable equality for Except values, used to evaluate handler
results on concrete inputs. -/
def exceptDecEq {e a : Type} [DecidableEq e] [DecidableEq a] :
    DecidableEq (Except e a)
  | .error x, .error y =>
    if h : x = y then .isTrue (by rw [h]) else .isFalse (by simp [h])
  | .error _, .ok _ => .isFalse (by simp)
  | .ok _, .error _ => .isFalse (by simp)
  | .ok x, .ok y =>
    if h : x = y then .isTrue (by rw [h]) else .isFalse (by simp [h])

instance {e a : Type} [DecidableEq e] [DecidableEq a] :
    DecidableEq (Except e a) := exceptDecEq

/-- The extension as claim C10 words it in its general clause: the last
dot-suffix of the original name, taken verbatim (empty when no dot
occurs). -/
def lastDotSuffix (s : String) : String :=
  let l := s.toList
  let dotIndex := lastIndexOf '.' l
  if 0 ≤ dotIndex then String.mk (l.drop dotIndex.toNat) else ""

/-- Concrete stored row used as a test fixture. -/
def recA : ImageMetadata := ⟨1, "a1.jpg", "a.jpg", none, 0, none⟩

/-- Concrete stored row used as a test fixture. -/
def recB : ImageMetadata := ⟨2, "b2.jpg", "b.jpg", none, 0, none⟩

/-- Concrete stored row used as a test fixture. -/
def recC : ImageMetadata := ⟨3, "c3.jpg", "c.jpg", none, 0, none⟩

/-- Concrete database state holding three rows. -/
def db3 : DBState := ⟨[recA, recB, recC], 4, 0⟩

/-- Concrete UUID fixture. -/
def uuidA : String := "11111111-1111-1111-1111-111111111111"

/-- Concrete UUID fixture, distinct from uuidA but of equal length. -/
def uuidB : String := "22222222-2222-2222-2222-222222222222"

/-- Concrete UUID fixture for the end-to-end upload. -/
def uuidCat : String := "123e4567-e89b-12d3-a456-426614174000"

/-- The end-to-end upload of spec section 8: a file named cat.jpg. -/
def catUpload : UploadFile := ⟨"cat.jpg", [137, 80, 78, 71]⟩

/-- Empty storage fixture. -/
def emptyStorage : Storage := ⟨[]⟩

/-- Fresh database fixture: no rows, next id 1, clock at 42. -/
def emptyDB : DBState := ⟨[], 1, 42⟩

/-- The row the end-to-end upload is expected to create. -/
def recCat : ImageMetadata :=
  ⟨1, uuidCat ++ ".jpg", "cat.jpg", some "Ana", 42, some "Lisbon"⟩

/-- The row created by create_image_metadata on db3 in the C4 witness. -/
def recD : ImageMetadata := ⟨4, "d4.jpg", "d.jpg", some "Ana", 0, none⟩

/-- The database state after inserting recD into db3. -/
def db4 : DBState := ⟨db3.records ++ [recD], 5, 0⟩

theorem append_ne_of_ne_of_len {a b c d : String}
    (hne : a ≠ c) (hlen : a.length = c.length) : a ++ b ≠ c ++ d := by
  intro h
  apply hne
  have hd : a.data ++ b.data = c.data ++ d.data := by
    have := congrArg String.data h
    simpa [String.data_append] using this
  have : a.data = c.data := List.append_inj_left hd hlen
  exact String.ext this

theorem find_by_id_of_mem (l : List ImageMetadata) (r : ImageMetadata)
    (hmem : r ∈ l) (hnd : (l.map ImageMetadata.id).Nodup) :
    l.find? (fun x => x.id == r.id) = some r := by
  induction l with
  | nil => cases hmem
  | cons x xs ih =>
    simp only [List.map_cons, List.nodup_cons] at hnd
    rcases List.mem_cons.mp hmem with h | h
    · subst h
      simp [List.find?]
    · have hx : x.id ≠ r.id := by
        intro he
        exact hnd.1 (he ▸ List.mem_map_of_mem ImageMetadata.id h)
      have hxb : (x.id == r.id) = false := beq_eq_false_iff_ne.mpr hx
      rw [show List.find? (fun x => x.id == r.id) (x :: xs)
            = List.find? (fun x => x.id == r.id) xs from by
          simp [List.find?, hxb]]
      exact ih h hnd.2

theorem find_append_right (l : List ImageMetadata) (r : ImageMetadata)
    (h : ∀ x ∈ l, x.id ≠ r.id) :
    (l ++ [r]).find? (fun x => x.id == r.id) = some r := by
  induction l with
  | nil => simp [List.find?]
  | cons x xs ih =>
    have hxb : (x.id == r.id) = false := beq_eq_false_iff_ne.mpr (h x (by simp))
    rw [List.cons_append,
      show List.find? (fun x => x.id == r.id) (x :: (xs ++ [r]))
          = List.find? (fun x => x.id == r.id) (xs ++ [r]) from by
        simp [List.find?, hxb]]
    exact ih (fun y hy => h y (by simp [hy]))

theorem lastIndexOf_of_not_mem {c : Char} {l : List Char} (h : c ∉ l) :
    lastIndexOf c l = -1 := by
  induction l with
  | nil => rfl
  | cons x xs ih =>
    have hx : ¬(x = c) := fun he => h (he ▸ List.mem_cons_self x xs)
    have hxs : c ∉ xs := fun hm => h (List.mem_cons_of_mem x hm)
    simp [lastIndexOf, ih hxs, hx]

theorem neg_one_le_lastIndexOf (c : Char) (l : List Char) :
    -1 ≤ lastIndexOf c l := by
  induction l with
  | nil => simp [lastIndexOf]
  | cons x xs ih =>
    simp only [lastIndexOf]
    split
    · omega
    · split <;> omega

/-- C1: save_image_file returns the drawn unique id followed by the
extension derived from the original filename, records the stream's full
contents at that name under the storage root, and two calls that draw
distinct (equal-length, as all canonical UUID strings are) random ids
return distinct filenames. -/
theorem C1_save_unique (u1 u2 : String) (f1 f2 : UploadFile)
    (s1 s2 : Storage) (hne : u1 ≠ u2) (hlen : u1.length = u2.length) :
    (save_image_file u1 f1 s1).1 = u1 ++ (splitext f1.filename).2 ∧
    (save_image_file u1 f1 s1).2.lookup
        (joinPath UPLOAD_DIR (save_image_file u1 f1 s1).1) = some f1.content ∧
    (save_image_file u1 f1 s1).1 ≠ (save_image_file u2 f2 s2).1 := by
  refine ⟨rfl, ?_, ?_⟩
  · simp [save_image_file, Storage.lookup, List.find?]
  · exact append_ne_of_ne_of_len hne hlen

/-- Witness for C1 at concrete inputs. -/
theorem C1_save_unique_witness :
    uuidA ≠ uuidB ∧ uuidA.length = uuidB.length ∧
    ((save_image_file uuidA ⟨"cat.jpg", [1]⟩ ⟨[]⟩).1
        = uuidA ++ (splitext "cat.jpg").2 ∧
      (save_image_file uuidA ⟨"cat.jpg", [1]⟩ ⟨[]⟩).2.lookup
        (joinPath UPLOAD_DIR (save_image_file uuidA ⟨"cat.jpg", [1]⟩ ⟨[]⟩).1)
        = some [1] ∧
      (save_image_file uuidA ⟨"cat.jpg", [1]⟩ ⟨[]⟩).1
        ≠ (save_image_file uuidB ⟨"cat.jpg", [2]⟩ ⟨[]⟩).1) :=
  ⟨by decide, by decide,
    C1_save_unique uuidA uuidB ⟨"cat.jpg", [1]⟩ ⟨"cat.jpg", [2]⟩ ⟨[]⟩ ⟨[]⟩
      (by decide) (by decide)⟩

/-- C2 counterexample: with three stored records and N = 1, the record
recC is stored but appears in neither page, so the two calls do not
contain every stored record. -/
theorem C2_pagination_counterexample :
    recC ∈ db3.records ∧
    recC ∉ (list_images_metadata db3 0 1).1 ++ (list_images_metadata db3 1 1).1 := by
  decide

/-- C2 amended: the two pages concatenate to exactly the first 2N stored
records in order — hence no overlap (a duplicate-free store stays
duplicate-free) — and they cover every stored record precisely when the
store holds at most 2N records; beyond 2N records the remainder is
omitted. -/
theorem C2_pagination_partition (db : DBState) (N : Nat) (h : 1 ≤ N) :
    (list_images_metadata db 0 N).1 ++ (list_images_metadata db N N).1
      = db.records.take (2 * N) ∧
    (db.records.Nodup →
      ((list_images_metadata db 0 N).1 ++ (list_images_metadata db N N).1).Nodup) ∧
    (db.records.length ≤ 2 * N →
      (list_images_metadata db 0 N).1 ++ (list_images_metadata db N N).1
        = db.records) := by
  have key : (list_images_metadata db 0 N).1 ++ (list_images_metadata db N N).1
      = db.records.take (2 * N) := by
    simp [list_images_metadata, get_images_metadata, two_mul, List.take_add]
  refine ⟨key, ?_, ?_⟩
  · intro hn
    rw [key]
    exact List.Nodup.sublist (List.take_sublist _ _) hn
  · intro hlen
    rw [key, List.take_of_length_le hlen]

/-- Witness for the amended C2 at concrete inputs. -/
theorem C2_pagination_partition_witness :
    1 ≤ 2 ∧
    (list_images_metadata db3 0 2).1 ++ (list_images_metadata db3 2 2).1
      = db3.records.take (2 * 2) :=
  ⟨by decide, (C2_pagination_partition db3 2 (by decide)).1⟩

/-- C3: when no stored record carries the requested id the handler
answers exactly a 404 not-found error (in particular never a 500), and
when a stored record carries it (primary keys being unique) the handler
returns that record. -/
theorem C3_get_by_id (db : DBState) (image_id : Int) :
    ((∀ r ∈ db.records, r.id ≠ image_id) →
      (get_image_metadata_by_id db image_id).1
        = .error ⟨404, "Image not found"⟩) ∧
    (∀ r ∈ db.records, r.id = image_id →
      (db.records.map ImageMetadata.id).Nodup →
      (get_image_metadata_by_id db image_id).1 = .ok r) := by
  constructor
  · intro hnone
    have hfind : get_image_metadata db image_id = none := by
      apply List.find?_eq_none.mpr
      intro x hx
      simpa using hnone x hx
    simp [get_image_metadata_by_id, hfind]
  · intro r hmem hid hnd
    have hfind : get_image_metadata db image_id = some r := by
      subst hid
      exact find_by_id_of_mem db.records r hmem hnd
    simp [get_image_metadata_by_id, hfind]

/-- Witness for C3 at concrete inputs. -/
theorem C3_get_by_id_witness :
    (get_image_metadata_by_id db3 99).1 = .error ⟨404, "Image not found"⟩ ∧
    (get_image_metadata_by_id db3 3).1 = .ok recC :=
  ⟨(C3_get_by_id db3 99).1 (by decide),
   (C3_get_by_id db3 3).2 recC (by decide) (by decide) (by decide)⟩

/-- C4: a record returned by create is found again by a point lookup on
its id, identical, with the submitted optional fields (present or absent)
preserved as submitted; the hypothesis is the auto-increment invariant
that no stored row already carries the next id. -/
theorem C4_create_then_get (db : DBState) (fn ofn : String)
    (meta : ImageMetadataCreate) (rec : ImageMetadata) (db' : DBState)
    (hids : ∀ r ∈ db.records, r.id ≠ db.nextId)
    (hok : create_image_metadata db fn ofn meta = .ok (rec, db')) :
    get_image_metadata db' rec.id = some rec ∧
    rec.uploader_name = meta.uploader_name ∧ rec.location = meta.location := by
  unfold create_image_metadata at hok
  split at hok
  · exact absurd hok (by simp)
  · simp only [Except.ok.injEq, Prod.mk.injEq] at hok
    obtain ⟨hrec, hdb⟩ := hok
    subst hrec
    subst hdb
    refine ⟨?_, rfl, rfl⟩
    exact find_append_right db.records _ hids

/-- Witness for C4 at concrete inputs. -/
theorem C4_create_then_get_witness :
    get_image_metadata db4 recD.id = some recD ∧
    recD.uploader_name = some "Ana" ∧ recD.location = none :=
  C4_create_then_get db3 "d4.jpg" "d.jpg" ⟨some "Ana", none⟩ recD db4
    (by decide) (by decide)

/-- C5: when the file save succeeds and the metadata insert then fails,
the upload handler answers a 500 error, the saved file is still stored
under the storage root with its full contents (nothing deletes it), and
the database is left exactly as it was — no record created. -/
theorem C5_orphan_on_insert_failure (uuid : String) (upload_file : UploadFile)
    (uploader_name location : Option String) (storage : Storage) (db : DBState) :
    upload_image_and_metadata uuid upload_file uploader_name location
        false true storage db
      = (.error ⟨500, "Failed to create image metadata"⟩,
         ⟨(joinPath UPLOAD_DIR (save_image_file uuid upload_file storage).1,
            upload_file.content) :: storage.files⟩,
         db) ∧
    (upload_image_and_metadata uuid upload_file uploader_name location
        false true storage db).2.1.lookup
        (joinPath UPLOAD_DIR (save_image_file uuid upload_file storage).1)
      = some upload_file.content := by
  constructor
  · rfl
  · simp [upload_image_and_metadata, save_image_file, Storage.lookup, List.find?]

/-- C6: create inserts a new row and returns it with the assigned id and
the server-generated timestamp when the filename is fresh, and fails with
the uniqueness-violation error — surfaced, not swallowed — when the
filename collides with a stored record. -/
theorem C6_create_insert_or_collide (db : DBState) (fn ofn : String)
    (meta : ImageMetadataCreate) :
    ((∀ r ∈ db.records, r.filename ≠ fn) →
      ∃ rec, create_image_metadata db fn ofn meta
          = .ok (rec, ⟨db.records ++ [rec], db.nextId + 1, db.clock⟩) ∧
        rec.id = db.nextId ∧ rec.upload_timestamp = db.clock ∧
        rec.filename = fn ∧ rec.original_filename = ofn ∧
        rec.uploader_name = meta.uploader_name ∧
        rec.location = meta.location) ∧
    ((∃ r ∈ db.records, r.filename = fn) →
      create_image_metadata db fn ofn meta = .error DBError.uniqueViolation) := by
  constructor
  · intro hfree
    have hany : db.records.any (fun r => r.filename == fn) = false := by
      apply List.any_eq_false.mpr
      intro r hr
      simpa using hfree r hr
    refine ⟨⟨db.nextId, fn, ofn, meta.uploader_name, db.clock, meta.location⟩,
      ?_, rfl, rfl, rfl, rfl, rfl, rfl⟩
    simp [create_image_metadata, hany]
  · intro ⟨r, hr, hfn⟩
    have hany : db.records.any (fun r => r.filename == fn) = true :=
      List.any_eq_true.mpr ⟨r, hr, by simpa using hfn⟩
    simp [create_image_metadata, hany]

/-- Witness for C6 at concrete inputs. -/
theorem C6_create_insert_or_collide_witness :
    (∃ rec, create_image_metadata db3 "d4.jpg" "d.jpg" ⟨none, none⟩
        = .ok (rec, ⟨db3.records ++ [rec], db3.nextId + 1, db3.clock⟩) ∧
      rec.id = db3.nextId ∧ rec.upload_timestamp = db3.clock ∧
      rec.filename = "d4.jpg" ∧ rec.original_filename = "d.jpg" ∧
      rec.uploader_name = none ∧ rec.location = none) ∧
    create_image_metadata db3 "a1.jpg" "x.jpg" ⟨none, none⟩
      = .error DBError.uniqueViolation :=
  ⟨(C6_create_insert_or_collide db3 "d4.jpg" "d.jpg" ⟨none, none⟩).1 (by decide),
   (C6_create_insert_or_collide db3 "a1.jpg" "x.jpg" ⟨none, none⟩).2
     ⟨recA, by decide, by decide⟩⟩

/-- C7: uploading cat.jpg with uploader Ana and location Lisbon into a
fresh system yields a response carrying original_filename cat.jpg,
uploader_name Ana, location Lisbon, the server-assigned id and the
server-generated timestamp, and a stored filename different from
cat.jpg. -/
theorem C7_end_to_end_cat :
    (upload_image_and_metadata uuidCat catUpload (some "Ana") (some "Lisbon")
        false false emptyStorage emptyDB).1 = .ok recCat ∧
    recCat.original_filename = "cat.jpg" ∧
    recCat.uploader_name = some "Ana" ∧
    recCat.location = some "Lisbon" ∧
    recCat.id = emptyDB.nextId ∧
    recCat.upload_timestamp = emptyDB.clock ∧
    recCat.filename ≠ "cat.jpg" := by decide

/-- C8: records are immutable after creation — the upload handler only
ever appends to the stored rows (they remain a prefix, unchanged in place)
and only adds files to storage, on every path, and the two read handlers
return the database exactly as they found it. -/
theorem C8_records_immutable (uuid : String) (upload_file : UploadFile)
    (uploader_name location : Option String) (sfail dfail : Bool)
    (storage : Storage) (db : DBState) (skip limit : Nat) (image_id : Int) :
    db.records <+: (upload_image_and_metadata uuid upload_file uploader_name
        location sfail dfail storage db).2.2.records ∧
    storage.files <:+ (upload_image_and_metadata uuid upload_file uploader_name
        location sfail dfail storage db).2.1.files ∧
    (list_images_metadata db skip limit).2 = db ∧
    (get_image_metadata_by_id db image_id).2 = db := by
  refine ⟨?_, ?_, rfl, ?_⟩
  · cases sfail
    · cases dfail
      · unfold upload_image_and_metadata
        simp only [Bool.false_eq_true, if_false]
        rcases hc : create_image_metadata db
            (save_image_file uuid upload_file storage).1 upload_file.filename
            ⟨uploader_name, location⟩ with e | p
        · simp [hc]
        · simp only [hc]
          unfold create_image_metadata at hc
          split at hc
          · exact absurd hc (by simp)
          · simp only [Except.ok.injEq] at hc
            rw [← hc]
            exact ⟨_, rfl⟩
      · simp [upload_image_and_metadata]
    · simp [upload_image_and_metadata]
  · cases sfail
    · cases dfail
      · unfold upload_image_and_metadata
        simp only [Bool.false_eq_true, if_false]
        rcases hc : create_image_metadata db
            (save_image_file uuid upload_file storage).1 upload_file.filename
            ⟨uploader_name, location⟩ with e | p
        · simp [hc, save_image_file]
        · simp [hc, save_image_file]
      · simp [upload_image_and_metadata, save_image_file]
    · simp [upload_image_and_metadata]
  · rcases hg : get_image_metadata db image_id with _ | r <;>
      simp [get_image_metadata_by_id, hg]

/-- C9: the session opened for a request is handed to the handler while
open and is closed once the handler completes, whether the handler
returns a value or an error — the finally block runs unconditionally. -/
theorem C9_session_always_closed {ε α : Type}
    (handler : DbSession → Except ε α) :
    (get_db_run handler).1 = handler { closed := false } ∧
    (get_db_run handler).2.closed = true := ⟨rfl, rfl⟩

/-- C10 counterexample: for the original name .bashrc the last dot-suffix
is .bashrc itself, yet splitext derives an empty extension, so the stored
extension is not the verbatim last dot-suffix; the stored name is the
bare random id. -/
theorem C10_extension_counterexample :
    lastDotSuffix ".bashrc" = ".bashrc" ∧
    (splitext ".bashrc").2 = "" ∧
    (splitext ".bashrc").2 ≠ lastDotSuffix ".bashrc" ∧
    (save_image_file "u0" ⟨".bashrc", []⟩ ⟨[]⟩).1 = "u0" := by decide

/-- C10 amended: a dotless original name yields an empty extension and
the bare random id as stored name; and the stored extension equals the
verbatim, unvalidated last dot-suffix whenever the name has no slash and
some character before its last dot is not itself a dot — when every such
character is a dot (leading-dot names) the extension is empty instead. -/
theorem C10_extension_rule (f : String) :
    (('.' ∉ f.toList) →
      (splitext f).2 = "" ∧
      ∀ (u : String) (c : List Nat) (st : Storage),
        (save_image_file u ⟨f, c⟩ st).1 = u) ∧
    (('/' ∉ f.toList) →
      (∃ i : Nat, (i : Int) < lastIndexOf '.' f.toList ∧
        f.toList.getD i '.' ≠ '.') →
      (splitext f).2 = lastDotSuffix f) := by
  constructor
  · intro hnod
    have hdot : lastIndexOf '.' f.toList = -1 := lastIndexOf_of_not_mem hnod
    have hsep : -1 ≤ lastIndexOf '/' f.toList := neg_one_le_lastIndexOf _ _
    have hext : (splitext f).2 = "" := by
      unfold splitext
      rw [if_neg (by omega)]
    refine ⟨hext, ?_⟩
    intro u c st
    show u ++ (splitext f).2 = u
    rw [hext]
    simp
  · intro hnos ⟨i, hlt, hne⟩
    have hsep : lastIndexOf '/' f.toList = -1 := lastIndexOf_of_not_mem hnos
    have hdotpos : (0 : Int) ≤ lastIndexOf '.' f.toList := by
      have : (0 : Int) ≤ (i : Int) := Int.ofNat_nonneg i
      omega
    have hgt : lastIndexOf '.' f.toList > lastIndexOf '/' f.toList := by
      rw [hsep]; omega
    have hi : i < (lastIndexOf '.' f.toList).toNat := by
      rw [Int.lt_toNat] at *
      exact_mod_cast hlt
    have hany : (List.range ((lastIndexOf '.' f.toList).toNat -
        ((lastIndexOf '/' f.toList) + 1).toNat)).any
        (fun j => f.toList.getD ((((lastIndexOf '/' f.toList) + 1).toNat) + j) '.'
          != '.') = true := by
      apply List.any_eq_true.mpr
      refine ⟨i, ?_, ?_⟩
      · apply List.mem_range.mpr
        rw [hsep]
        simpa using hi
      · rw [hsep]
        simpa using hne
    unfold splitext
    rw [if_pos hgt, if_pos hany]
    unfold lastDotSuffix
    rw [if_pos hdotpos]

/-- Witness for the amended C10 at concrete inputs. -/
theorem C10_extension_rule_witness :
    (splitext "noext").2 = "" ∧
    (splitext "archive.tar.gz").2 = lastDotSuffix "archive.tar.gz" :=
  ⟨((C10_extension_rule "noext").1 (by decide)).1,
   (C10_extension_rule "archive.tar.gz").2 (by decide)
     ⟨0, by decide, by decide⟩⟩

end RealReview
